import Mathlib

/-!
Verification of the SkillSwap repository core: the in-memory entity store
(`MemStorage` in src/server/storage.ts, two app variants), the match
suggestion endpoint (src/server/routes.ts, GET /api/matches/suggestions),
and the expense approval transition.

JavaScript `Map<number, T>` objects are modelled as association lists
`List (Nat × T)` in insertion order: `Map.set` on an existing key replaces
the value in place, otherwise appends; `Map.get` returns the value at the
key; `Map.delete` removes the entry and reports whether it existed;
`Array.from(map.values())` enumerates values in insertion order.
Timestamps (`new Date()`) are modelled as an explicit `now : Nat`
parameter in milliseconds, with `Date.getTime` the identity.
-/

namespace JSMap

/-- `String.prototype.toLowerCase`, modelled characterwise so that it
evaluates by kernel reduction; extensionally it is `String.map
Char.toLower`. -/
def jsToLower (s : String) : String :=
  ⟨s.data.map Char.toLower⟩

def jget (m : List (Nat × α)) (k : Nat) : Option α :=
  (m.find? (fun p => p.1 == k)).map (fun p => p.2)

def jset (m : List (Nat × α)) (k : Nat) (v : α) : List (Nat × α) :=
  if m.any (fun p => p.1 == k) then
    m.map (fun p => if p.1 == k then (k, v) else p)
  else
    m ++ [(k, v)]

def jdelete (m : List (Nat × α)) (k : Nat) : Bool × List (Nat × α) :=
  (m.any (fun p => p.1 == k), m.filter (fun p => p.1 != k))

def jvalues (m : List (Nat × α)) : List α :=
  m.map (fun p => p.2)

end JSMap

open JSMap

namespace SkillSwap

/-- src/shared schema (SkillSwap variant), `users` table / `User` type. -/
structure User where
  id : Nat
  email : String
  password : String
  name : String
  bio : Option String
  profilePicture : Option String
  location : Option String
  createdAt : Nat
  deriving DecidableEq, Repr

/-- `skills` table: `type` is "teach" or "learn". -/
structure Skill where
  id : Nat
  userId : Nat
  name : String
  type : String
  level : String
  description : Option String
  createdAt : Nat
  deriving DecidableEq, Repr

/-- `matches` table: status "pending", "accepted", "declined", "completed". -/
structure Match where
  id : Nat
  teacherId : Nat
  learnerId : Nat
  skillId : Nat
  status : String
  createdAt : Nat
  deriving DecidableEq, Repr

/-- `messages` table. -/
structure Message where
  id : Nat
  matchId : Nat
  senderId : Nat
  content : String
  createdAt : Nat
  deriving DecidableEq, Repr

/-- The collections of `MemStorage` (SkillSwap variant) that the verified
claims touch, with the per-entity id counters.  The sessions and exchanges
collections are independent of every operation verified here and are
omitted. -/
structure MemStorage where
  users : List (Nat × User)
  skills : List (Nat × Skill)
  «matches» : List (Nat × Match)
  messages : List (Nat × Message)
  currentUserId : Nat
  currentSkillId : Nat
  currentMatchId : Nat
  currentMessageId : Nat
  deriving Repr

def getUser (st : MemStorage) (id : Nat) : Option User :=
  jget st.users id

def getAllUsers (st : MemStorage) : List User :=
  jvalues st.users

/-- `Partial<User>`: every field optional, including `id`. -/
structure UserUpdate where
  id : Option Nat := none
  email : Option String := none
  password : Option String := none
  name : Option String := none
  bio : Option (Option String) := none
  profilePicture : Option (Option String) := none
  location : Option (Option String) := none
  createdAt : Option Nat := none
  deriving DecidableEq, Repr

/-- The object spread `{ ...user, ...updates }`. -/
def mergeUser (user : User) (updates : UserUpdate) : User :=
  { id := updates.id.getD user.id
    email := updates.email.getD user.email
    password := updates.password.getD user.password
    name := updates.name.getD user.name
    bio := updates.bio.getD user.bio
    profilePicture := updates.profilePicture.getD user.profilePicture
    location := updates.location.getD user.location
    createdAt := updates.createdAt.getD user.createdAt }

def updateUser (st : MemStorage) (id : Nat) (updates : UserUpdate) :
    Option User × MemStorage :=
  match jget st.users id with
  | none => (none, st)
  | some user =>
      let updatedUser := mergeUser user updates
      (some updatedUser, { st with users := jset st.users id updatedUser })

def getSkill (st : MemStorage) (id : Nat) : Option Skill :=
  jget st.skills id

def getSkillsByUser (st : MemStorage) (userId : Nat) : List Skill :=
  (jvalues st.skills).filter (fun skill => skill.userId == userId)

/-- `Partial<Skill>`. -/
structure SkillUpdate where
  id : Option Nat := none
  userId : Option Nat := none
  name : Option String := none
  type : Option String := none
  level : Option String := none
  description : Option (Option String) := none
  createdAt : Option Nat := none
  deriving DecidableEq, Repr

/-- The object spread `{ ...skill, ...updates }`. -/
def mergeSkill (skill : Skill) (updates : SkillUpdate) : Skill :=
  { id := updates.id.getD skill.id
    userId := updates.userId.getD skill.userId
    name := updates.name.getD skill.name
    type := updates.type.getD skill.type
    level := updates.level.getD skill.level
    description := updates.description.getD skill.description
    createdAt := updates.createdAt.getD skill.createdAt }

def updateSkill (st : MemStorage) (id : Nat) (updates : SkillUpdate) :
    Option Skill × MemStorage :=
  match jget st.skills id with
  | none => (none, st)
  | some skill =>
      let updatedSkill := mergeSkill skill updates
      (some updatedSkill, { st with skills := jset st.skills id updatedSkill })

def deleteSkill (st : MemStorage) (id : Nat) : Bool × MemStorage :=
  let r := jdelete st.skills id
  (r.1, { st with skills := r.2 })

def getMatchesByUser (st : MemStorage) (userId : Nat) : List Match :=
  (jvalues st.«matches»).filter
    (fun m => m.teacherId == userId || m.learnerId == userId)

/-- Insert payload for a match; `status` is optional (column default). -/
structure InsertMatch where
  teacherId : Nat
  learnerId : Nat
  skillId : Nat
  status : Option String := none
  deriving DecidableEq, Repr

/-- JavaScript `x || d` on an optional string: absent and the empty string
are both falsy. -/
def jsOrDefault (x : Option String) (d : String) : String :=
  match x with
  | none => d
  | some s => if s == "" then d else s

def createMatch (st : MemStorage) (insertMatch : InsertMatch) (now : Nat) :
    Match × MemStorage :=
  let m : Match :=
    { id := st.currentMatchId
      teacherId := insertMatch.teacherId
      learnerId := insertMatch.learnerId
      skillId := insertMatch.skillId
      status := jsOrDefault insertMatch.status "pending"
      createdAt := now }
  (m, { st with «matches» := jset st.«matches» m.id m
                currentMatchId := st.currentMatchId + 1 })

/-- `getMessagesByMatch` filters by match id and sorts by ascending
`createdAt` with `Array.prototype.sort` (a stable sort per the ECMAScript
specification); the stable insertion sort models it. -/
def getMessagesByMatch (st : MemStorage) (matchId : Nat) : List Message :=
  List.insertionSort (fun a b => a.createdAt ≤ b.createdAt)
    ((jvalues st.messages).filter (fun message => message.matchId == matchId))

def createMessage (st : MemStorage) (matchId senderId : Nat) (content : String)
    (now : Nat) : Message × MemStorage :=
  let message : Message :=
    { id := st.currentMessageId
      matchId := matchId
      senderId := senderId
      content := content
      createdAt := now }
  (message, { st with messages := jset st.messages message.id message
                      currentMessageId := st.currentMessageId + 1 })

/-- One element pushed by the suggestions endpoint: `teacher` is the full
`User` record from the store, `learner` is the bare object with only an
id. -/
structure Suggestion where
  teacher : User
  learnerId : Nat
  skill : Skill
  learningSkill : Skill
  deriving DecidableEq, Repr

/-- Body of the inner loop of GET /api/matches/suggestions/:userId for a
fixed learning skill and candidate user: skip the requesting user, look
for that user's first "teach" skill with a case-insensitively equal name,
and drop the candidate when a match already links the two users in either
direction. -/
def pairCandidate (st : MemStorage) (userId : Nat) (learningSkill : Skill)
    (user : User) : Option Suggestion :=
  if user.id == userId then none
  else
    let teacherSkills := getSkillsByUser st user.id
    match teacherSkills.find? (fun skill =>
        skill.type == "teach" &&
        jsToLower skill.name == jsToLower learningSkill.name) with
    | none => none
    | some matchingTeachSkill =>
        let existingMatches := getMatchesByUser st userId
        let alreadyMatched := existingMatches.any (fun m =>
          (m.teacherId == user.id && m.learnerId == userId) ||
          (m.teacherId == userId && m.learnerId == user.id))
        if alreadyMatched then none
        else some { teacher := user
                    learnerId := userId
                    skill := matchingTeachSkill
                    learningSkill := learningSkill }

/-- GET /api/matches/suggestions/:userId. -/
def suggest (st : MemStorage) (userId : Nat) : List Suggestion :=
  let userSkills := getSkillsByUser st userId
  let learningSkills := userSkills.filter (fun skill => skill.type == "learn")
  if learningSkills.isEmpty then []
  else
    learningSkills.flatMap (fun learningSkill =>
      (getAllUsers st).filterMap (fun user =>
        pairCandidate st userId learningSkill user))

/-- The shape returned by GET /api/users and GET /api/users/:id after the
destructuring `const (password, ...rest) = user`: every field of `User`
except the credential. -/
structure PublicUser where
  id : Nat
  email : String
  name : String
  bio : Option String
  profilePicture : Option String
  location : Option String
  createdAt : Nat
  deriving DecidableEq, Repr

def toPublicUser (user : User) : PublicUser :=
  { id := user.id
    email := user.email
    name := user.name
    bio := user.bio
    profilePicture := user.profilePicture
    location := user.location
    createdAt := user.createdAt }

/-- GET /api/users: list all users with the password stripped. -/
def getAllUsersRoute (st : MemStorage) : List PublicUser :=
  (getAllUsers st).map (fun user => toPublicUser user)

end SkillSwap

namespace ExpenseApp

/-- src/shared/schema.ts `expenses` table.  In the TypeScript row type
`status` is a string with the database-level default "pending", but
`MemStorage.createExpense` builds the record by spreading the validated
insert payload, in which `status` is optional (the insert schema marks
defaulted columns optional and does not itself inject the default), so at
runtime the field can be absent; it is therefore modelled as an option. -/
structure Expense where
  id : Nat
  userId : Nat
  title : String
  description : Option String
  amount : String
  category : String
  receiptUrl : Option String
  status : Option String
  approvedBy : Option Nat
  approvedAt : Option Nat
  submittedAt : Option Nat
  createdAt : Nat
  updatedAt : Nat
  deriving DecidableEq, Repr

/-- `insertExpenseSchema` payload: `id`, `createdAt`, `updatedAt`,
`approvedBy`, `approvedAt` and `submittedAt` are omitted; `status`,
`description` and `receiptUrl` are optional. -/
structure InsertExpense where
  userId : Nat
  title : String
  description : Option String := none
  amount : String
  category : String
  receiptUrl : Option String := none
  status : Option String := none
  deriving DecidableEq, Repr

/-- `approvals` table. -/
structure Approval where
  id : Nat
  expenseId : Nat
  approverId : Nat
  status : String
  comments : Option String
  createdAt : Nat
  deriving DecidableEq, Repr

/-- `insertApprovalSchema` payload. -/
structure InsertApproval where
  expenseId : Nat
  approverId : Nat
  status : String
  comments : Option String := none
  deriving DecidableEq, Repr

/-- The collections of `MemStorage` (expense-app variant) that the
verified claims touch; users, teams and team members are independent of
every operation verified here and are omitted. -/
structure MemStorage where
  expenses : List (Nat × Expense)
  approvals : List (Nat × Approval)
  currentExpenseId : Nat
  currentApprovalId : Nat

def getExpense (st : MemStorage) (id : Nat) : Option Expense :=
  jget st.expenses id

/-- `createExpense`: spread the insert payload, assign the next id, stamp
`createdAt`/`updatedAt`, and null the approval columns. -/
def createExpense (st : MemStorage) (insertExpense : InsertExpense)
    (now : Nat) : Expense × MemStorage :=
  let expense : Expense :=
    { id := st.currentExpenseId
      userId := insertExpense.userId
      title := insertExpense.title
      description := insertExpense.description
      amount := insertExpense.amount
      category := insertExpense.category
      receiptUrl := insertExpense.receiptUrl
      status := insertExpense.status
      approvedBy := none
      approvedAt := none
      submittedAt := none
      createdAt := now
      updatedAt := now }
  (expense, { st with expenses := jset st.expenses expense.id expense
                      currentExpenseId := st.currentExpenseId + 1 })

/-- `Partial<Expense>`.  The nullable columns appear as options of
options: the outer layer is presence in the payload, the inner the null. -/
structure ExpenseUpdate where
  id : Option Nat := none
  userId : Option Nat := none
  title : Option String := none
  description : Option (Option String) := none
  amount : Option String := none
  category : Option String := none
  receiptUrl : Option (Option String) := none
  status : Option (Option String) := none
  approvedBy : Option (Option Nat) := none
  approvedAt : Option (Option Nat) := none
  submittedAt : Option (Option Nat) := none
  createdAt : Option Nat := none
  updatedAt : Option Nat := none
  deriving DecidableEq, Repr

/-- The spread `{ ...expense, ...updates, updatedAt: new Date() }`: the
`updatedAt` stamp comes last and always wins. -/
def mergeExpense (expense : Expense) (updates : ExpenseUpdate) (now : Nat) :
    Expense :=
  { id := updates.id.getD expense.id
    userId := updates.userId.getD expense.userId
    title := updates.title.getD expense.title
    description := updates.description.getD expense.description
    amount := updates.amount.getD expense.amount
    category := updates.category.getD expense.category
    receiptUrl := updates.receiptUrl.getD expense.receiptUrl
    status := updates.status.getD expense.status
    approvedBy := updates.approvedBy.getD expense.approvedBy
    approvedAt := updates.approvedAt.getD expense.approvedAt
    submittedAt := updates.submittedAt.getD expense.submittedAt
    createdAt := updates.createdAt.getD expense.createdAt
    updatedAt := now }

def updateExpense (st : MemStorage) (id : Nat) (updates : ExpenseUpdate)
    (now : Nat) : Option Expense × MemStorage :=
  match jget st.expenses id with
  | none => (none, st)
  | some expense =>
      let updatedExpense := mergeExpense expense updates now
      (some updatedExpense,
       { st with expenses := jset st.expenses id updatedExpense })

def deleteExpense (st : MemStorage) (id : Nat) : Bool × MemStorage :=
  let r := jdelete st.expenses id
  (r.1, { st with expenses := r.2 })

def createApproval (st : MemStorage) (insertApproval : InsertApproval)
    (now : Nat) : Approval × MemStorage :=
  let approval : Approval :=
    { id := st.currentApprovalId
      expenseId := insertApproval.expenseId
      approverId := insertApproval.approverId
      status := insertApproval.status
      comments := insertApproval.comments
      createdAt := now }
  (approval, { st with approvals := jset st.approvals approval.id approval
                       currentApprovalId := st.currentApprovalId + 1 })

/-- Modelled from the spec: the expense-app route handler for
POST /api/approvals is not among the repository sources (only the storage
methods it calls and the client code that posts to it are).  Per spec
section 4.3, creating an Approval with status "approved" sets the
referenced Expense status to "approved" and stamps the approver id and
time, while status "rejected" sets the Expense status to "rejected" with
no approver stamp; the Approval creation and the Expense update are two
separate storage operations. -/
def createApprovalRoute (st : MemStorage) (insertApproval : InsertApproval)
    (now : Nat) : Approval × MemStorage :=
  let r := createApproval st insertApproval now
  let st2 :=
    if insertApproval.status == "approved" then
      (updateExpense r.2 insertApproval.expenseId
        { status := some (some "approved")
          approvedBy := some (some insertApproval.approverId)
          approvedAt := some (some now) } now).2
    else if insertApproval.status == "rejected" then
      (updateExpense r.2 insertApproval.expenseId
        { status := some (some "rejected") } now).2
    else r.2
  (r.1, st2)

end ExpenseApp

namespace SkillSwap

/-- Concrete fixture for the specified Guitar scenario: User A teaches
"Guitar" at level advanced, User B wants to learn "guitar" at level
beginner, no match exists. -/
def userA : User :=
  { id := 1, email := "a@example.com", password := "pwA", name := "A"
    bio := none, profilePicture := none, location := none, createdAt := 0 }

def userB : User :=
  { id := 2, email := "b@example.com", password := "pwB", name := "B"
    bio := none, profilePicture := none, location := none, createdAt := 0 }

def teachGuitar : Skill :=
  { id := 1, userId := 1, name := "Guitar", type := "teach"
    level := "advanced", description := none, createdAt := 0 }

def learnGuitar : Skill :=
  { id := 2, userId := 2, name := "guitar", type := "learn"
    level := "beginner", description := none, createdAt := 0 }

def scenarioStore : MemStorage :=
  { users := [(1, userA), (2, userB)]
    skills := [(1, teachGuitar), (2, learnGuitar)]
    «matches» := []
    messages := []
    currentUserId := 3, currentSkillId := 3
    currentMatchId := 1, currentMessageId := 1 }

def teachGuitarCaps : Skill :=
  { id := 3, userId := 1, name := "GUITAR", type := "teach"
    level := "intermediate", description := none, createdAt := 0 }

/-- The single candidate produced for B in the Guitar scenario. -/
def guitarSuggestion : Suggestion :=
  { teacher := userA, learnerId := 2, skill := teachGuitar,
    learningSkill := learnGuitar }

/-- Fixture for the C1 counterexample: teacher A owns two distinct teach
skills whose names both match "guitar" case-insensitively. -/
def dupTeachStore : MemStorage :=
  { scenarioStore with
    skills := [(1, teachGuitar), (2, learnGuitar), (3, teachGuitarCaps)]
    currentSkillId := 4 }


end SkillSwap

namespace SkillSwap

def userC : User :=
  { id := 3, email := "c@example.com", password := "pwC", name := "C"
    bio := none, profilePicture := none, location := none, createdAt := 0 }

/-- Declined match linking user C (teacher) and user B (learner). -/
def declinedMatchCB : Match :=
  { id := 1, teacherId := 3, learnerId := 2, skillId := 1
    status := "declined", createdAt := 0 }

/-- Fixture with a third user and an existing declined match between C and
B; the Guitar suggestion for B from user A is unaffected by it. -/
def matchedStore : MemStorage :=
  { users := [(1, userA), (2, userB), (3, userC)]
    skills := [(1, teachGuitar), (2, learnGuitar)]
    «matches» := [(1, declinedMatchCB)]
    messages := []
    currentUserId := 4, currentSkillId := 3
    currentMatchId := 2, currentMessageId := 1 }

end SkillSwap

namespace ExpenseApp

/-- Concrete submitted expense used by the witnesses. -/
def submittedExpense : Expense :=
  { id := 1, userId := 7, title := "Taxi", description := none
    amount := "42.00", category := "travel", receiptUrl := none
    status := some "submitted", approvedBy := none, approvedAt := none
    submittedAt := some 10, createdAt := 5, updatedAt := 10 }

def expenseStore : MemStorage :=
  { expenses := [(1, submittedExpense)]
    approvals := []
    currentExpenseId := 2, currentApprovalId := 1 }

end ExpenseApp

instance : IsTotal SkillSwap.Message (fun a b => a.createdAt ≤ b.createdAt) :=
  ⟨fun a b => Nat.le_total a.createdAt b.createdAt⟩

instance : IsTrans SkillSwap.Message (fun a b => a.createdAt ≤ b.createdAt) :=
  ⟨fun _ _ _ h h2 => Nat.le_trans h h2⟩

namespace JSMap

lemma find?_map_replace (k : Nat) (v : α) :
    ∀ m : List (Nat × α), m.any (fun p => p.1 == k) = true →
      (m.map (fun p => if p.1 == k then (k, v) else p)).find?
        (fun p => p.1 == k) = some (k, v) := by
  intro m
  induction m with
  | nil => intro h; simp at h
  | cons hd tl ih =>
      intro h
      rw [List.map_cons]
      by_cases hhd : hd.1 = k
      · rw [if_pos (by simpa using hhd)]
        exact List.find?_cons_of_pos _ (by simp)
      · rw [if_neg (by simpa using hhd)]
        rw [List.find?_cons_of_neg _ (by simpa using hhd)]
        have hany : tl.any (fun p => p.1 == k) = true := by
          simpa [List.any_cons, hhd] using h
        exact ih hany

lemma find?_append_fresh (k : Nat) (v : α) :
    ∀ m : List (Nat × α), m.any (fun p => p.1 == k) = false →
      (m ++ [(k, v)]).find? (fun p => p.1 == k) = some (k, v) := by
  intro m
  induction m with
  | nil => simp [List.find?]
  | cons hd tl ih =>
      intro h
      rw [List.any_cons] at h
      have hhd : (hd.1 == k) = false := by
        cases hb : (hd.1 == k) <;> simp [hb] at h ⊢
      have htl : tl.any (fun p => p.1 == k) = false := by
        cases hb : tl.any (fun p => p.1 == k) <;> simp [hb] at h ⊢
      simpa [List.find?, hhd] using ih htl

/-- Reading back the key just written returns the written value. -/
lemma jget_jset_self (m : List (Nat × α)) (k : Nat) (v : α) :
    jget (jset m k v) k = some v := by
  unfold jget jset
  by_cases h : m.any (fun p => p.1 == k) = true
  · rw [if_pos h, find?_map_replace k v m h, Option.map_some']
  · have h' : m.any (fun p => p.1 == k) = false := by
      cases hb : m.any (fun p => p.1 == k) <;> simp [hb] at h ⊢
    rw [if_neg h, find?_append_fresh k v m h', Option.map_some']

/-- The value just written is among the map values. -/
lemma mem_jvalues_jset (m : List (Nat × α)) (k : Nat) (v : α) :
    v ∈ jvalues (jset m k v) := by
  unfold jvalues jset
  by_cases h : m.any (fun p => p.1 == k) = true
  · rw [if_pos h]
    rcases List.any_eq_true.mp h with ⟨p, hp, hpk⟩
    refine List.mem_map.mpr ⟨(k, v), List.mem_map.mpr ⟨p, hp, ?_⟩, rfl⟩
    simp [hpk]
  · rw [if_neg h]
    simp

/-- `Map.delete` reports whether the key was present. -/
lemma jdelete_fst (m : List (Nat × α)) (k : Nat) :
    (jdelete m k).1 = (jget m k).isSome := by
  have : (jdelete m k).1 = true ↔ (jget m k).isSome = true := by
    simp [jdelete, jget, List.any_eq_true, List.find?_isSome]
  cases h1 : (jdelete m k).1 <;> cases h2 : (jget m k).isSome <;>
    simp [h1, h2] at this ⊢

/-- After a delete, a read of the key reports absence. -/
lemma jget_jdelete (m : List (Nat × α)) (k : Nat) :
    jget (jdelete m k).2 k = none := by
  have : ((jdelete m k).2.find? (fun p => p.1 == k)) = none := by
    refine List.find?_eq_none.mpr ?_
    intro x hx
    have := (List.mem_filter.mp hx).2
    simpa using this
  simp [jget, this]

/-- A second delete of the same key reports `false`. -/
lemma jdelete_jdelete_fst (m : List (Nat × α)) (k : Nat) :
    (jdelete (jdelete m k).2 k).1 = false := by
  unfold jdelete
  refine List.any_eq_false.mpr ?_
  intro x hx
  have := (List.mem_filter.mp hx).2
  simpa using this

end JSMap

lemma countP_flatMap_eq_sum (p : β → Bool) (f : α → List β) :
    ∀ l : List α,
      (l.flatMap f).countP p = (l.map (fun a => (f a).countP p)).sum := by
  intro l
  induction l with
  | nil => simp
  | cons hd tl ih => simp [List.flatMap_cons, List.countP_append, ih]

/-- In a list whose keys are pairwise distinct, a sum of per-element
contributions that vanish away from the key of `x` collapses to the
contribution of `x`. -/
lemma sum_map_eq_single (key : α → Nat) (g : α → Nat) :
    ∀ l : List α, l.Pairwise (fun a b => key a ≠ key b) →
      ∀ x ∈ l, (∀ a ∈ l, key a ≠ key x → g a = 0) →
      (l.map g).sum = g x := by
  intro l
  induction l with
  | nil => intro _ x hx; cases hx
  | cons hd tl ih =>
      intro hp x hx h0
      rw [List.pairwise_cons] at hp
      rcases List.mem_cons.mp hx with rfl | hx'
      · have hz : ∀ a ∈ tl, g a = 0 := fun a ha =>
          h0 a (List.mem_cons_of_mem _ ha) (Ne.symm (hp.1 a ha))
        have : (tl.map g).sum = 0 :=
          List.sum_eq_zero (by
            intro y hy
            rcases List.mem_map.mp hy with ⟨a, ha, rfl⟩
            exact hz a ha)
        simp [this]
      · have hhd : g hd = 0 :=
          h0 hd (List.mem_cons_self hd tl) (hp.1 x hx')
        have := ih hp.2 x hx' (fun a ha => h0 a (List.mem_cons_of_mem _ ha))
        simp [hhd, this]

/-- Counting with a predicate that is false away from the key of `x`, in a
list with pairwise-distinct keys, counts the single occurrence of `x`. -/
lemma countP_eq_single (key : α → Nat) (q : α → Bool) :
    ∀ l : List α, l.Pairwise (fun a b => key a ≠ key b) →
      ∀ x ∈ l, (∀ a ∈ l, key a ≠ key x → q a = false) →
      l.countP q = if q x then 1 else 0 := by
  intro l
  induction l with
  | nil => intro _ x hx; cases hx
  | cons hd tl ih =>
      intro hp x hx h0
      rw [List.pairwise_cons] at hp
      rw [List.countP_cons]
      rcases List.mem_cons.mp hx with rfl | hx'
      · have : tl.countP q = 0 :=
          List.countP_eq_zero.mpr (by
            intro a ha
            simp [h0 a (List.mem_cons_of_mem _ ha) (Ne.symm (hp.1 a ha))])
        simp [this]
      · have hhd : q hd = false :=
          h0 hd (List.mem_cons_self hd tl) (hp.1 x hx')
        have := ih hp.2 x hx' (fun a ha => h0 a (List.mem_cons_of_mem _ ha))
        simp [hhd, this]

namespace SkillSwap

/-- A produced candidate records the inspected user as teacher, the
learning skill it was produced for, and the requesting user, and is only
produced for a different user. -/
lemma pairCandidate_eq_some {st : MemStorage} {userId : Nat} {L : Skill}
    {u : User} {c : Suggestion} (h : pairCandidate st userId L u = some c) :
    c.teacher = u ∧ c.learningSkill = L ∧ c.learnerId = userId ∧
      u.id ≠ userId := by
  simp only [pairCandidate] at h
  split at h
  · cases h
  · next h1 =>
      split at h
      · cases h
      · next T hf =>
          split at h
          · cases h
          · cases h
            exact ⟨rfl, rfl, rfl, by simpa using h1⟩

/-- The inner loop produces a candidate exactly when the inspected user is
another user owning a case-insensitively matching teach skill and no match
links the two users in either direction. -/
lemma pairCandidate_isSome_iff (st : MemStorage) (userId : Nat) (L : Skill)
    (u : User) :
    (pairCandidate st userId L u).isSome = true ↔
      (u.id ≠ userId ∧
       (∃ t ∈ getSkillsByUser st u.id,
         t.type = "teach" ∧ jsToLower t.name = jsToLower L.name) ∧
       ¬ ∃ m ∈ getMatchesByUser st userId,
           (m.teacherId = u.id ∧ m.learnerId = userId) ∨
           (m.teacherId = userId ∧ m.learnerId = u.id)) := by
  simp only [pairCandidate]
  split
  · next h1 =>
      have h1' : u.id = userId := by simpa using h1
      simp [h1']
  · next h1 =>
      have h1' : u.id ≠ userId := by simpa using h1
      split
      · next hf =>
          have hno : ∀ t ∈ getSkillsByUser st u.id,
              ¬(t.type = "teach" ∧ jsToLower t.name = jsToLower L.name) := by
            intro t ht
            have := List.find?_eq_none.mp hf t ht
            simpa using this
          simp only [Option.isSome_none, Bool.false_eq_true, false_iff]
          intro hcontra
          rcases hcontra.2.1 with ⟨t, ht, htt⟩
          exact hno t ht htt
      · next T hf =>
          split
          · next ha =>
              simp only [Option.isSome_none, Bool.false_eq_true, false_iff]
              intro hcontra
              rcases List.any_eq_true.mp ha with ⟨m, hm, hmb⟩
              refine hcontra.2.2 ⟨m, hm, ?_⟩
              rcases Bool.or_eq_true_iff.mp hmb with hb | hb
              · left
                have := Bool.and_eq_true_iff.mp hb
                exact ⟨by simpa using this.1, by simpa using this.2⟩
              · right
                have := Bool.and_eq_true_iff.mp hb
                exact ⟨by simpa using this.1, by simpa using this.2⟩
          · next ha =>
              have ha' : ((getMatchesByUser st userId).any fun m =>
                  (m.teacherId == u.id && m.learnerId == userId) ||
                  (m.teacherId == userId && m.learnerId == u.id)) = false := by
                simpa using ha
              simp only [Option.isSome_some, true_iff]
              refine ⟨h1', ?_, ?_⟩
              · refine ⟨T, List.mem_of_find?_eq_some hf, ?_⟩
                have := List.find?_some hf
                have hb := Bool.and_eq_true_iff.mp this
                exact ⟨by simpa using hb.1, by simpa using hb.2⟩
              · intro hcontra
                rcases hcontra with ⟨m, hm, hmor⟩
                have := List.any_eq_false.mp ha' m hm
                apply this
                rcases hmor with ⟨hmt, hml⟩ | ⟨hmt, hml⟩
                · exact Bool.or_eq_true_iff.mpr (Or.inl
                    (Bool.and_eq_true_iff.mpr
                      ⟨by simpa using hmt, by simpa using hml⟩))
                · exact Bool.or_eq_true_iff.mpr (Or.inr
                    (Bool.and_eq_true_iff.mpr
                      ⟨by simpa using hmt, by simpa using hml⟩))

end SkillSwap

namespace SkillSwap

/-- C1, amended: for every learner id, the suggestion endpoint produces
exactly one candidate for each pair of (a "learn" skill owned by the
learner, another user owning at least one "teach" skill whose name is
equal under case-insensitive comparison and not already linked to the
learner by a Match in either direction), and produces zero candidates for
every other (learn skill, user) pair; at most one candidate is produced
per teacher and learn skill even when several of that teacher's teach
skills match.  In particular, with User A teaching "Guitar" and User B
learning "guitar" and no existing Match, suggest(B) returns exactly one
candidate with teacher A, skill "Guitar", learning skill "guitar". -/
theorem suggest_one_candidate_per_qualifying_pair :
    (∀ (st : MemStorage) (userId : Nat) (L : Skill) (U : User),
      (jvalues st.users).Pairwise (fun a b => a.id ≠ b.id) →
      (jvalues st.skills).Pairwise (fun a b => a.id ≠ b.id) →
      L ∈ (getSkillsByUser st userId).filter (fun s => s.type == "learn") →
      U ∈ getAllUsers st →
      (suggest st userId).countP
          (fun c => c.teacher.id == U.id && c.learningSkill.id == L.id) =
        if U.id ≠ userId ∧
            (∃ t ∈ getSkillsByUser st U.id,
              t.type = "teach" ∧ jsToLower t.name = jsToLower L.name) ∧
            ¬ ∃ m ∈ getMatchesByUser st userId,
                (m.teacherId = U.id ∧ m.learnerId = userId) ∨
                (m.teacherId = userId ∧ m.learnerId = U.id)
          then 1 else 0) ∧
    suggest scenarioStore 2 = [guitarSuggestion] := by
  constructor
  · intro st userId L U hu hs hL hU
    have hne : (((getSkillsByUser st userId).filter
        (fun s => s.type == "learn")).isEmpty) = false := by
      cases hemp : ((getSkillsByUser st userId).filter
          (fun s => s.type == "learn")).isEmpty
      · rfl
      · rw [List.isEmpty_iff] at hemp
        rw [hemp] at hL
        cases hL
    simp only [suggest, hne, Bool.false_eq_true, if_false]
    rw [countP_flatMap_eq_sum]
    have h1 : List.Sublist (getSkillsByUser st userId) (jvalues st.skills) := by
      unfold getSkillsByUser
      exact List.filter_sublist _
    have h2 : List.Sublist ((getSkillsByUser st userId).filter
        (fun s => s.type == "learn")) (getSkillsByUser st userId) :=
      List.filter_sublist _
    have hLs := List.Pairwise.sublist (h2.trans h1) hs
    have hzero : ∀ a ∈ (getSkillsByUser st userId).filter
        (fun s => s.type == "learn"), Skill.id a ≠ Skill.id L →
        ((getAllUsers st).filterMap
          (fun user => pairCandidate st userId a user)).countP
          (fun c => c.teacher.id == U.id && c.learningSkill.id == L.id)
          = 0 := by
      intro a _ hne'
      refine List.countP_eq_zero.mpr ?_
      intro c hc
      rcases List.mem_filterMap.mp hc with ⟨u, _, hcu⟩
      rcases pairCandidate_eq_some hcu with ⟨_, hls, _, _⟩
      simp [hls, hne']
    rw [sum_map_eq_single Skill.id _ _ hLs L hL hzero]
    rw [List.countP_filterMap]
    have hu' : (getAllUsers st).Pairwise (fun a b => a.id ≠ b.id) := hu
    have hzero2 : ∀ a ∈ getAllUsers st, User.id a ≠ User.id U →
        ((Option.map
          (fun c : Suggestion =>
            c.teacher.id == U.id && c.learningSkill.id == L.id)
          (pairCandidate st userId L a)).getD false) = false := by
      intro a _ hnea
      cases hpc : pairCandidate st userId L a with
      | none => simp
      | some c =>
          rcases pairCandidate_eq_some hpc with ⟨hct, _, _, _⟩
          simp [hct, hnea]
    rw [countP_eq_single User.id _ _ hu' U hU hzero2]
    cases hpc : pairCandidate st userId L U with
    | none =>
        have hnc : ¬(U.id ≠ userId ∧
            (∃ t ∈ getSkillsByUser st U.id,
              t.type = "teach" ∧ jsToLower t.name = jsToLower L.name) ∧
            ¬ ∃ m ∈ getMatchesByUser st userId,
                (m.teacherId = U.id ∧ m.learnerId = userId) ∨
                (m.teacherId = userId ∧ m.learnerId = U.id)) := by
          intro hcond
          have h := (pairCandidate_isSome_iff st userId L U).mpr hcond
          rw [hpc] at h
          simp at h
        rw [if_neg hnc]
        simp
    | some c =>
        have hcond := (pairCandidate_isSome_iff st userId L U).mp
          (by rw [hpc]; rfl)
        rcases pairCandidate_eq_some hpc with ⟨hct, hcl, _, _⟩
        rw [if_pos hcond]
        simp [hct, hcl]
  · decide

/-- C1, counterexample to the claim as frozen: in `dupTeachStore` teacher
A owns two distinct teach skills ("Guitar" and "GUITAR") whose names both
equal learner B's learn skill "guitar" under case-insensitive comparison,
so the claim demands one candidate for each of the two (learn skill,
teach skill) pairs; but the endpoint produces no candidate at all that
carries the second matching teach skill, because it keeps only the first
matching teach skill per teacher. -/
theorem suggest_skips_second_matching_teach_skill :
    (teachGuitarCaps.type = "teach" ∧
     teachGuitarCaps.userId = 1 ∧ learnGuitar.userId = 2 ∧
     jsToLower teachGuitarCaps.name = jsToLower learnGuitar.name ∧
     teachGuitarCaps ∈ getSkillsByUser dupTeachStore 1 ∧
     learnGuitar ∈ (getSkillsByUser dupTeachStore 2).filter
       (fun s => s.type == "learn") ∧
     getMatchesByUser dupTeachStore 2 = []) ∧
    (suggest dupTeachStore 2).countP
      (fun c => c.skill.id == teachGuitarCaps.id) = 0 := by
  decide

/-- C1 witness: instantiating the per-pair count at the Guitar scenario
yields exactly one candidate for the pair (learn "guitar", teacher A). -/
theorem suggest_one_candidate_per_qualifying_pair_witness :
    (suggest scenarioStore 2).countP
      (fun c => c.teacher.id == userA.id &&
                c.learningSkill.id == learnGuitar.id) = 1 := by
  have h := suggest_one_candidate_per_qualifying_pair.1 scenarioStore 2
    learnGuitar userA (by decide) (by decide) (by decide) (by decide)
  rw [h]
  decide

end SkillSwap

namespace SkillSwap

/-- C2: a candidate is never produced when any stored Match links the
candidate teacher and the learner in either direction, whatever the
status of that Match; consequently, after `createMatch` links a teacher
and the learner — with any status payload, including "declined" — a
second `suggest` call for that learner contains no candidate with that
teacher id. -/
theorem suggest_excludes_matched_teachers :
    (∀ (st : MemStorage) (userId : Nat) (c : Suggestion),
      c ∈ suggest st userId →
      ∀ m ∈ jvalues st.«matches»,
        ¬((m.teacherId = c.teacher.id ∧ m.learnerId = userId) ∨
          (m.teacherId = userId ∧ m.learnerId = c.teacher.id))) ∧
    (∀ (st : MemStorage) (userId teacherId skillId : Nat)
        (status : Option String) (now : Nat),
      ∀ c ∈ suggest (createMatch st
          { teacherId := teacherId, learnerId := userId,
            skillId := skillId, status := status } now).2 userId,
        c.teacher.id ≠ teacherId) := by
  have hpart1 : ∀ (st : MemStorage) (userId : Nat) (c : Suggestion),
      c ∈ suggest st userId →
      ∀ m ∈ jvalues st.«matches»,
        ¬((m.teacherId = c.teacher.id ∧ m.learnerId = userId) ∨
          (m.teacherId = userId ∧ m.learnerId = c.teacher.id)) := by
    intro st userId c hc m hm hpair
    simp only [suggest] at hc
    split at hc
    · cases hc
    · rcases List.mem_flatMap.mp hc with ⟨L, _, hcL⟩
      rcases List.mem_filterMap.mp hcL with ⟨u, _, hcu⟩
      have hiff := (pairCandidate_isSome_iff st userId L u).mp
        (by rw [hcu]; rfl)
      rcases pairCandidate_eq_some hcu with ⟨hct, _, _, _⟩
      rw [hct] at hpair
      rcases hpair with ⟨hmt, hml⟩ | ⟨hmt, hml⟩
      · refine hiff.2.2 ⟨m, ?_, Or.inl ⟨hmt, hml⟩⟩
        unfold getMatchesByUser
        exact List.mem_filter.mpr ⟨hm, by simp [hml]⟩
      · refine hiff.2.2 ⟨m, ?_, Or.inr ⟨hmt, hml⟩⟩
        unfold getMatchesByUser
        exact List.mem_filter.mpr ⟨hm, by simp [hmt]⟩
  refine ⟨hpart1, ?_⟩
  intro st userId teacherId skillId status now c hc heq
  have hmm : ({ id := st.currentMatchId, teacherId := teacherId,
                learnerId := userId, skillId := skillId,
                status := jsOrDefault status "pending",
                createdAt := now } : Match) ∈
      jvalues (createMatch st
        { teacherId := teacherId, learnerId := userId,
          skillId := skillId, status := status } now).2.«matches» := by
    simp only [createMatch]
    exact mem_jvalues_jset _ _ _
  exact hpart1 _ userId c hc _ hmm (Or.inl ⟨heq.symm, rfl⟩)

/-- C2 witness: in `matchedStore` the candidate with teacher A is in the
suggestion list for B while the declined C-to-B match is stored, and the
theorem instantiated there shows that the stored match links neither A as
teacher of B nor B as teacher of A. -/
theorem suggest_excludes_matched_teachers_witness :
    ¬((declinedMatchCB.teacherId = guitarSuggestion.teacher.id ∧
       declinedMatchCB.learnerId = 2) ∨
      (declinedMatchCB.teacherId = 2 ∧
       declinedMatchCB.learnerId = guitarSuggestion.teacher.id)) :=
  suggest_excludes_matched_teachers.1 matchedStore 2 guitarSuggestion
    (by decide) declinedMatchCB (by decide)

/-- C9: for every user id whose owned skills contain no skill of type
"learn" — which covers any user id absent from the store altogether,
since such an id owns no skills — the suggestion endpoint returns the
empty list (and signals no error: the function is total). -/
theorem suggest_empty_without_learn_skills :
    ∀ (st : MemStorage) (userId : Nat),
      (getSkillsByUser st userId).filter (fun s => s.type == "learn") = [] →
      suggest st userId = [] := by
  intro st userId h
  simp [suggest, h]

/-- C9 witness: user id 999 occurs nowhere in `scenarioStore`, so it owns
no learn skills and the endpoint returns the empty list. -/
theorem suggest_empty_without_learn_skills_witness :
    suggest scenarioStore 999 = [] :=
  suggest_empty_without_learn_skills scenarioStore 999 (by decide)

/-- C10: the teacher field of every suggested candidate is the complete
stored User record — in particular its password field carries the stored
credential — although the user listing route returns password-stripped
records for every user. -/
theorem suggest_returns_full_teacher_record :
    (∀ (st : MemStorage) (userId : Nat) (c : Suggestion),
      c ∈ suggest st userId →
      ∃ u ∈ getAllUsers st, c.teacher = u ∧ c.teacher.password = u.password) ∧
    (∀ st : MemStorage,
      getAllUsersRoute st = (getAllUsers st).map toPublicUser) := by
  constructor
  · intro st userId c hc
    simp only [suggest] at hc
    split at hc
    · cases hc
    · rcases List.mem_flatMap.mp hc with ⟨L, _, hcL⟩
      rcases List.mem_filterMap.mp hcL with ⟨u, hu, hcu⟩
      rcases pairCandidate_eq_some hcu with ⟨hct, _, _, _⟩
      exact ⟨u, hu, hct, by rw [hct]⟩
  · intro st
    rfl

/-- C10 witness: the concrete candidate suggested to B in the Guitar
scenario carries the full stored record of user A, password included. -/
theorem suggest_returns_full_teacher_record_witness :
    ∃ u ∈ getAllUsers scenarioStore,
      guitarSuggestion.teacher = u ∧
      guitarSuggestion.teacher.password = u.password :=
  suggest_returns_full_teacher_record.1 scenarioStore 2 guitarSuggestion
    (by decide)

end SkillSwap

namespace ExpenseApp

/-- C3, spec-modelled route: for every stored Expense in status
"submitted", creating an Approval with status "approved" through the
approvals route sets that Expense's status to "approved" and stamps
approvedBy with the approver id and approvedAt with the decision time,
while an Approval with status "rejected" sets the status to "rejected"
and leaves approvedBy and approvedAt untouched. -/
theorem approval_sets_expense_status :
    ∀ (st : MemStorage) (ins : InsertApproval) (now : Nat) (e : Expense),
      jget st.expenses ins.expenseId = some e →
      e.status = some "submitted" →
      ((ins.status = "approved" →
        ∃ e2, jget (createApprovalRoute st ins now).2.expenses
            ins.expenseId = some e2 ∧
          e2.status = some "approved" ∧
          e2.approvedBy = some ins.approverId ∧
          e2.approvedAt = some now) ∧
       (ins.status = "rejected" →
        ∃ e2, jget (createApprovalRoute st ins now).2.expenses
            ins.expenseId = some e2 ∧
          e2.status = some "rejected" ∧
          e2.approvedBy = e.approvedBy ∧
          e2.approvedAt = e.approvedAt)) := by
  intro st ins now e hget hsub
  have hget2 : jget ((createApproval st ins now).2).expenses
      ins.expenseId = some e := hget
  constructor
  · intro hap
    have hb : (ins.status == "approved") = true := by simp [hap]
    simp only [createApprovalRoute, hb, if_true]
    simp only [updateExpense, hget2]
    rw [jget_jset_self]
    exact ⟨_, rfl, rfl, rfl, rfl⟩
  · intro hrej
    have hb1 : (ins.status == "approved") = false := by
      rw [hrej]; decide
    have hb2 : (ins.status == "rejected") = true := by simp [hrej]
    simp only [createApprovalRoute, hb1, hb2, if_true, Bool.false_eq_true,
      if_false]
    simp only [updateExpense, hget2]
    rw [jget_jset_self]
    exact ⟨_, rfl, rfl, rfl, rfl⟩

/-- C3 witness: approving the concrete submitted expense of
`expenseStore` stamps it approved by approver 9 at time 99. -/
theorem approval_sets_expense_status_witness :
    ∃ e2, jget (createApprovalRoute expenseStore
        { expenseId := 1, approverId := 9, status := "approved" } 99).2.expenses
        1 = some e2 ∧
      e2.status = some "approved" ∧
      e2.approvedBy = some 9 ∧ e2.approvedAt = some 99 :=
  (approval_sets_expense_status expenseStore
    { expenseId := 1, approverId := 9, status := "approved" } 99
    submittedExpense (by decide) (by decide)).1 rfl

/-- C8, counterexample to the claim as frozen: `createExpense` spreads
the validated insert payload, in which `status` is a legal field, so a
payload carrying status "submitted" yields a fresh Expense whose status
is "submitted", not "pending".  (The "pending" default of the status
column is a schema declaration applied at the database layer, which the
in-memory store bypasses.) -/
theorem createExpense_keeps_payload_status :
    ((createExpense expenseStore
        { userId := 7, title := "Lunch", amount := "10.00",
          category := "meals", status := some "submitted" } 50).1.status =
      some "submitted") ∧
    ¬((createExpense expenseStore
        { userId := 7, title := "Lunch", amount := "10.00",
          category := "meals", status := some "submitted" } 50).1.status =
      some "pending") := by
  decide

/-- C8, amended: every Expense returned by `createExpense` has
approvedBy, approvedAt and submittedAt unset (null) and carries exactly
the status field of the insert payload; the store itself applies no
"pending" default. -/
theorem createExpense_initial_fields :
    ∀ (st : MemStorage) (ins : InsertExpense) (now : Nat),
      (createExpense st ins now).1.approvedBy = none ∧
      (createExpense st ins now).1.approvedAt = none ∧
      (createExpense st ins now).1.submittedAt = none ∧
      (createExpense st ins now).1.status = ins.status := by
  intro st ins now
  exact ⟨rfl, rfl, rfl, rfl⟩

end ExpenseApp

namespace SkillSwap

/-- C4, counterexample to the claim as frozen: `Partial<T>` admits the
`id` field, and the update methods spread the payload over the stored
record unchecked, so updating skill 1 with the payload containing only
`id := 99` returns and stores — still under map key 1 — a record whose
id is 99, no longer the id 1 assigned at creation. -/
theorem updateSkill_id_payload_changes_id :
    (jget scenarioStore.skills 1).map Skill.id = some 1 ∧
    (updateSkill scenarioStore 1 { id := some 99 }).1.map Skill.id =
      some 99 ∧
    (jget (updateSkill scenarioStore 1 { id := some 99 }).2.skills 1).map
      Skill.id = some 99 := by
  decide

/-- C4, amended: a record's id assigned at creation survives every update
whose payload does not itself carry an `id` field; both the record
returned by the update and the record subsequently readable under the
same key keep the prior id (shown for the skill and user stores). -/
theorem update_preserves_id_without_id_in_payload :
    (∀ (st : MemStorage) (id : Nat) (upd : SkillUpdate) (r : Skill),
      upd.id = none → jget st.skills id = some r →
      (updateSkill st id upd).1.map Skill.id = some r.id ∧
      (jget (updateSkill st id upd).2.skills id).map Skill.id = some r.id) ∧
    (∀ (st : MemStorage) (id : Nat) (upd : UserUpdate) (r : User),
      upd.id = none → jget st.users id = some r →
      (updateUser st id upd).1.map User.id = some r.id ∧
      (jget (updateUser st id upd).2.users id).map User.id = some r.id) := by
  constructor
  · intro st id upd r hid hget
    simp only [updateSkill, hget]
    refine ⟨by simp [mergeSkill, hid], ?_⟩
    rw [jget_jset_self]
    simp [mergeSkill, hid]
  · intro st id upd r hid hget
    simp only [updateUser, hget]
    refine ⟨by simp [mergeUser, hid], ?_⟩
    rw [jget_jset_self]
    simp [mergeUser, hid]

/-- C4 witness: updating skill 1 and user 1 of the scenario store with an
empty payload keeps id 1 in the returned and the stored records. -/
theorem update_preserves_id_witness :
    ((updateSkill scenarioStore 1 {}).1.map Skill.id = some teachGuitar.id ∧
     (jget (updateSkill scenarioStore 1 {}).2.skills 1).map Skill.id =
       some teachGuitar.id) ∧
    ((updateUser scenarioStore 1 {}).1.map User.id = some userA.id ∧
     (jget (updateUser scenarioStore 1 {}).2.users 1).map User.id =
       some userA.id) :=
  ⟨update_preserves_id_without_id_in_payload.1 scenarioStore 1 {}
      teachGuitar rfl (by decide),
   update_preserves_id_without_id_in_payload.2 scenarioStore 1 {}
      userA rfl (by decide)⟩

/-- C5: an update merges only the payload fields — every field absent
from the payload keeps its prior value, except the store-managed
updatedAt stamp of the expense store — and an update addressed to an
absent id returns the not-found signal rather than an error (shown for
the skill store, which tracks no modification stamp, and the expense
store, which does). -/
theorem update_merges_only_payload_fields :
    (∀ (st : MemStorage) (id : Nat) (upd : SkillUpdate) (r : Skill),
      jget st.skills id = some r →
      ∃ r2, (updateSkill st id upd).1 = some r2 ∧
        jget (updateSkill st id upd).2.skills id = some r2 ∧
        (upd.id = none → r2.id = r.id) ∧
        (upd.userId = none → r2.userId = r.userId) ∧
        (upd.name = none → r2.name = r.name) ∧
        (upd.type = none → r2.type = r.type) ∧
        (upd.level = none → r2.level = r.level) ∧
        (upd.description = none → r2.description = r.description) ∧
        (upd.createdAt = none → r2.createdAt = r.createdAt)) ∧
    (∀ (st : MemStorage) (id : Nat) (upd : SkillUpdate),
      jget st.skills id = none → (updateSkill st id upd).1 = none) ∧
    (∀ (st : ExpenseApp.MemStorage) (id : Nat)
        (upd : ExpenseApp.ExpenseUpdate) (now : Nat) (r : ExpenseApp.Expense),
      jget st.expenses id = some r →
      ∃ r2, (ExpenseApp.updateExpense st id upd now).1 = some r2 ∧
        jget (ExpenseApp.updateExpense st id upd now).2.expenses id =
          some r2 ∧
        r2.updatedAt = now ∧
        (upd.id = none → r2.id = r.id) ∧
        (upd.userId = none → r2.userId = r.userId) ∧
        (upd.title = none → r2.title = r.title) ∧
        (upd.description = none → r2.description = r.description) ∧
        (upd.amount = none → r2.amount = r.amount) ∧
        (upd.category = none → r2.category = r.category) ∧
        (upd.receiptUrl = none → r2.receiptUrl = r.receiptUrl) ∧
        (upd.status = none → r2.status = r.status) ∧
        (upd.approvedBy = none → r2.approvedBy = r.approvedBy) ∧
        (upd.approvedAt = none → r2.approvedAt = r.approvedAt) ∧
        (upd.submittedAt = none → r2.submittedAt = r.submittedAt) ∧
        (upd.createdAt = none → r2.createdAt = r.createdAt)) ∧
    (∀ (st : ExpenseApp.MemStorage) (id : Nat)
        (upd : ExpenseApp.ExpenseUpdate) (now : Nat),
      jget st.expenses id = none →
      (ExpenseApp.updateExpense st id upd now).1 = none) := by
  refine ⟨?_, ?_, ?_, ?_⟩
  · intro st id upd r hget
    simp only [updateSkill, hget]
    refine ⟨mergeSkill r upd, rfl, jget_jset_self _ _ _, ?_, ?_, ?_, ?_,
      ?_, ?_, ?_⟩ <;>
      (intro h; simp [mergeSkill, h])
  · intro st id upd hget
    simp [updateSkill, hget]
  · intro st id upd now r hget
    simp only [ExpenseApp.updateExpense, hget]
    refine ⟨ExpenseApp.mergeExpense r upd now, rfl, jget_jset_self _ _ _,
      rfl, ?_, ?_, ?_, ?_, ?_, ?_, ?_, ?_, ?_, ?_, ?_, ?_⟩ <;>
      (intro h; simp [ExpenseApp.mergeExpense, h])
  · intro st id upd now hget
    simp [ExpenseApp.updateExpense, hget]

/-- C5 witness: a payload naming only the skill name keeps the level of
skill 1 of the scenario store unchanged and returns the merged record. -/
theorem update_merges_only_payload_fields_witness :
    ∃ r2, (updateSkill scenarioStore 1 { name := some "Violin" }).1 =
        some r2 ∧
      r2.level = teachGuitar.level := by
  obtain ⟨r2, h1, _, _, _, _, _, hlvl, _, _⟩ :=
    update_merges_only_payload_fields.1 scenarioStore 1
      { name := some "Violin" } teachGuitar (by decide)
  exact ⟨r2, h1, hlvl rfl⟩

/-- C6: delete reports whether a record with the id existed, a subsequent
get of the id reports absence rather than an error, and a second delete
with no intervening re-creation reports false (shown for the skill and
expense stores). -/
theorem delete_reports_presence_and_removes :
    (∀ (st : MemStorage) (id : Nat),
      (deleteSkill st id).1 = (getSkill st id).isSome ∧
      getSkill (deleteSkill st id).2 id = none ∧
      (deleteSkill (deleteSkill st id).2 id).1 = false) ∧
    (∀ (st : ExpenseApp.MemStorage) (id : Nat),
      (ExpenseApp.deleteExpense st id).1 =
        (ExpenseApp.getExpense st id).isSome ∧
      ExpenseApp.getExpense (ExpenseApp.deleteExpense st id).2 id = none ∧
      (ExpenseApp.deleteExpense
        (ExpenseApp.deleteExpense st id).2 id).1 = false) := by
  constructor
  · intro st id
    exact ⟨jdelete_fst _ _, jget_jdelete _ _, jdelete_jdelete_fst _ _⟩
  · intro st id
    exact ⟨jdelete_fst _ _, jget_jdelete _ _, jdelete_jdelete_fst _ _⟩

/-- C7: for every match id and store state, the messages returned by
`getMessagesByMatch` are sorted in ascending creation-time order, and are
a permutation of the stored messages of that match whatever their
insertion order. -/
theorem messages_sorted_ascending :
    ∀ (st : MemStorage) (matchId : Nat),
      (getMessagesByMatch st matchId).Sorted
        (fun a b => a.createdAt ≤ b.createdAt) ∧
      (getMessagesByMatch st matchId).Perm
        ((jvalues st.messages).filter
          (fun message => message.matchId == matchId)) := by
  intro st matchId
  exact ⟨List.sorted_insertionSort _ _, List.perm_insertionSort _ _⟩

end SkillSwap
